import Mathlib

/-!
Verification of `config/config.go` (package `config` of zhanglei/golang-utils)
against its natural-language specification.

Shallow embedding conventions:
* A Go `interface{}` value stored in the configuration is the inductive
  `Value` below.  JSON parsing (`encoding/json` unmarshalling into
  `map[string]interface{}`) only ever produces the variants `null`, `bool`,
  `num` (Go `float64`), `str`, `arr` and `obj`; the variants `int64V` and
  `uint64V` model native Go `int64`/`uint64` values that can enter the store
  through `Set` and that the `GetRequired*` accessors switch on.
* Go `float64` numbers are modelled as rationals `ℚ`: every JSON numeric
  literal the claims exercise is exactly representable, and the
  float-to-integer conversion `int64(f)` is modelled by truncation toward
  zero (`truncToZero`), per the Go specification ("conversion of a
  floating-point number to an integer discards the fraction, truncating
  toward zero").  Out-of-range conversions are implementation-defined in Go
  and are not modelled (the result is an unbounded `Int`).
* A Go map is modelled as an association list with unique keys; a *nil* map
  is distinguished from an empty one (`Config.entries : Option ...`),
  because reads on a nil map yield the zero value while writes panic.
* A Go function that can panic or call `os.Exit` returns the outcome type
  `Res α`: `ret a e` is a normal return of value `a` with error code `e`
  (Go returns a value *and* an error), `panic msg` is a runtime panic
  (e.g. a failed type assertion), and `exit code diag` is `os.Exit code`
  after logging `diag`.
* The textual layer of `encoding/json` (lexing/printing) is standard
  library code, not code of this repository; it is modelled at the level of
  parsed documents: `Json` is the abstract syntax tree of a valid JSON
  document, `Loads` consumes a `Json` tree and `Dumps` produces one.
  `json.Marshal` emits map keys in sorted order; the model emits them in
  stored order, which is immaterial because key order is irrelevant to
  value equality (maps are compared by lookup).
-/

/-- AST of a valid JSON document, the input of `json.Unmarshal` and the
output of `json.Marshal`. An object is a list of key/value pairs in textual
order (duplicate keys possible in the text; Go keeps the last one). -/
inductive Json where
  | null
  | bool (b : Bool)
  | num (q : ℚ)
  | str (s : String)
  | arr (elems : List Json)
  | obj (entries : List (String × Json))

/-- Go `interface{}` value stored in a `Config`
(`type Value interface{}`, config.go line 17). -/
inductive Value where
  /-- Go `nil` interface (from JSON `null`, or the zero `Value`). -/
  | null
  | bool (b : Bool)
  /-- Go `float64`, the type `encoding/json` uses for every JSON number. -/
  | num (q : ℚ)
  /-- native Go `int64` (enters only through `Set`). -/
  | int64V (n : Int)
  /-- native Go `uint64` (enters only through `Set`). -/
  | uint64V (n : Nat)
  | str (s : String)
  /-- Go `[]interface{}`. -/
  | arr (elems : List Value)
  /-- Go `map[string]interface{}` (a nested JSON object). -/
  | obj (entries : List (String × Value))

/-- `type Config map[string]Value` (config.go line 14).
`entries = none` models a nil Go map (the zero value of a map type),
`entries = some es` a non-nil map whose bindings are `es` (unique keys). -/
structure Config where
  entries : Option (List (String × Value))

/-- The error values a `config` operation can produce: `ErrNoSuchKey`
(config.go line 20) and the `*json.UnmarshalTypeError` that
`json.Unmarshal` returns when the top-level JSON value cannot be stored in
a Go map. -/
inductive GoError where
  | noSuchKey
  | unmarshalTypeError
  deriving DecidableEq

/-- Outcome of running a Go function body: a normal return (with Go's
error-code slot), a runtime panic, or process termination via `os.Exit`. -/
inductive Res (α : Type) where
  | ret (a : α) (e : Option GoError)
  | panic (msg : String)
  | exit (code : Nat) (diag : String)

/-- Lookup in an association list: Go map read `m[k]`. -/
def lookupEntry (l : List (String × Value)) (k : String) : Option Value :=
  match l with
  | [] => none
  | (k', v) :: t => if k' = k then some v else lookupEntry t k

/-- Go map write `m[k] = v` on a non-nil map: replace the binding of `k` in
place if present, else append a new binding. -/
def insertEntry (l : List (String × Value)) (k : String) (v : Value) :
    List (String × Value) :=
  match l with
  | [] => [(k, v)]
  | (k', v') :: t =>
    if k' = k then (k', v) :: t else (k', v') :: insertEntry t k v

/-- Read `(*c)[key]`: `none` when the key is absent (Go's `ok = false`);
reads on a nil map behave as on an empty one. -/
def Config.get? (c : Config) (k : String) : Option Value :=
  match c.entries with
  | none => none
  | some es => lookupEntry es k

/-- Truncation toward zero, the semantics of Go's float-to-integer
conversions `int64(f)` / `uint64(f)` ("discards the fraction"). -/
def truncToZero (q : ℚ) : Int :=
  if 0 ≤ q then ⌊q⌋ else ⌈q⌉

/-- Building a Go map from successive assignments `m[k] = v` in textual
order: a later duplicate key overwrites an earlier one. -/
def dedupAux (acc : List (String × Value)) :
    List (String × Value) → List (String × Value)
  | [] => acc
  | (k, v) :: t => dedupAux (insertEntry acc k v) t

def dedupEntries (l : List (String × Value)) : List (String × Value) :=
  dedupAux [] l

mutual

/-- How `json.Unmarshal` decodes a JSON value into `interface{}`:
`null`→nil, booleans→`bool`, numbers→`float64`, strings→`string`,
arrays→`[]interface{}`, objects→`map[string]interface{}` (last duplicate
key wins). -/
def unmarshalValue : Json → Value
  | .null => .null
  | .bool b => .bool b
  | .num q => .num q
  | .str s => .str s
  | .arr l => .arr (unmarshalList l)
  | .obj es => .obj (dedupEntries (unmarshalEntries es))

def unmarshalList : List Json → List Value
  | [] => []
  | j :: t => unmarshalValue j :: unmarshalList t

def unmarshalEntries : List (String × Json) → List (String × Value)
  | [] => []
  | (k, j) :: t => (k, unmarshalValue j) :: unmarshalEntries t

end

mutual

/-- How `json.Marshal` encodes an `interface{}` value.  All `Value`
variants are marshallable (no channels/functions/NaN in the model), so no
error case arises; native integers marshal as JSON numbers. -/
def marshalValue : Value → Json
  | .null => .null
  | .bool b => .bool b
  | .num q => .num q
  | .int64V n => .num (n : ℚ)
  | .uint64V n => .num (n : ℚ)
  | .str s => .str s
  | .arr l => .arr (marshalList l)
  | .obj es => .obj (marshalEntries es)

def marshalList : List Value → List Json
  | [] => []
  | v :: t => marshalValue v :: marshalList t

def marshalEntries : List (String × Value) → List (String × Json)
  | [] => []
  | (k, v) :: t => (k, marshalValue v) :: marshalEntries t

end

/-- `Loads(data []byte) (c Config, err error)` (config.go lines 26-32):
`json.Unmarshal(data, &c)` on an already-parsed document.  A top-level
object fills the map; the JSON literal `null` leaves `c` as its zero value,
a nil map, with **no** error; any other top level yields an
`UnmarshalTypeError` (cannot unmarshal into `map[string]Value`) and leaves
`c` nil. -/
def Loads (j : Json) : Config × Option GoError :=
  match j with
  | .null => (⟨none⟩, none)
  | .obj es => (⟨some (dedupEntries (unmarshalEntries es))⟩, none)
  | _ => (⟨none⟩, some .unmarshalTypeError)

/-- `(c *Config) Dumps() (dump []byte, err error)` (config.go lines 47-53):
`json.Marshal(c)`.  A nil map marshals to the JSON literal `null`; a
non-nil map marshals to an object.  No value of the model is
unmarshallable, so the error is always nil. -/
def Dumps (c : Config) : Json × Option GoError :=
  match c.entries with
  | none => (.null, none)
  | some es => (.obj (marshalEntries es), none)

/-- `(c *Config) Get(key string) (Value, error)` (config.go lines 64-70):
`val, ok := (*c)[key]`; on a miss the zero `Value` (nil interface) is
returned together with `ErrNoSuchKey`, otherwise the stored value
unmodified with a nil error. -/
def Get (c : Config) (k : String) : Value × Option GoError :=
  match c.get? k with
  | none => (.null, some .noSuchKey)
  | some v => (v, none)

/-- Panic message of a failed Go type assertion `val.(T)`. -/
def assertFail (t : String) : String :=
  "interface conversion: config.Value is not " ++ t

/-- `(c *Config) GetString(key string) (string, error)` (config.go lines
72-78): on a miss returns `("", ErrNoSuchKey)`; otherwise `val.(string)`,
a bare type assertion that panics when the dynamic type is not `string`. -/
def GetString (c : Config) (k : String) : Res String :=
  match c.get? k with
  | none => .ret "" (some .noSuchKey)
  | some (.str s) => .ret s none
  | some _ => .panic (assertFail "string")

/-- `(c *Config) GetInt64(key string) (int64, error)` (config.go lines
80-86): on a miss returns `(0, ErrNoSuchKey)`; otherwise
`int64(val.(float64))` — the assertion panics unless the dynamic type is
exactly `float64`, and the conversion truncates toward zero. -/
def GetInt64 (c : Config) (k : String) : Res Int :=
  match c.get? k with
  | none => .ret 0 (some .noSuchKey)
  | some (.num q) => .ret (truncToZero q) none
  | some _ => .panic (assertFail "float64")

/-- `(c *Config) GetUint64(key string) (uint64, error)` (config.go lines
88-94): like `GetInt64` but `uint64(val.(float64))`.  The numeric result is
modelled as the truncation (negative/out-of-range conversions are
implementation-defined in Go and not modelled). -/
def GetUint64 (c : Config) (k : String) : Res Int :=
  match c.get? k with
  | none => .ret 0 (some .noSuchKey)
  | some (.num q) => .ret (truncToZero q) none
  | some _ => .panic (assertFail "float64")

/-- `(c *Config) GetSubConfig(key string) (Config, error)` (config.go lines
98-105): on a `Get` error returns `(Config{}, err)` — `Config{}` is an
empty **non-nil** map; otherwise `val.(map[string]interface{})` (panics if
the value is not a JSON object) followed by the unsafe-pointer
reinterpretation of that map as a `Config`, which at the model level is the
identity on the entries. -/
def GetSubConfig (c : Config) (k : String) : Res Config :=
  match c.get? k with
  | none => .ret ⟨some []⟩ (some .noSuchKey)
  | some (.obj es) => .ret ⟨some es⟩ none
  | some _ => .panic (assertFail "map[string]interface \x7b\x7d")

/-- `(c *Config) GetRequired(key string) Value` (config.go lines 117-124):
`Get`, but on any error logs `"Configuration parameter %s is mandatory"`
with the key and calls `os.Exit(1)` instead of returning the error. -/
def GetRequired (c : Config) (k : String) : Res Value :=
  match c.get? k with
  | none => .exit 1 ("Configuration parameter " ++ k ++ " is mandatory")
  | some v => .ret v none

/-- `(c *Config) GetRequiredSubConfig(key string) Config` (config.go lines
109-112): `GetRequired` then the same assertion and cast as
`GetSubConfig`. -/
def GetRequiredSubConfig (c : Config) (k : String) : Res Config :=
  match GetRequired c k with
  | .ret (.obj es) _ => .ret ⟨some es⟩ none
  | .ret _ _ => .panic (assertFail "map[string]interface \x7b\x7d")
  | .panic m => .panic m
  | .exit n d => .exit n d

/-- `(c *Config) GetRequiredString(key string) string` (config.go lines
126-128): `c.GetRequired(key).(string)`. -/
def GetRequiredString (c : Config) (k : String) : Res String :=
  match GetRequired c k with
  | .ret (.str s) _ => .ret s none
  | .ret _ _ => .panic (assertFail "string")
  | .panic m => .panic m
  | .exit n d => .exit n d

/-- `(c *Config) GetRequiredInt64(key string) int64` (config.go lines
130-139): a type switch accepting a native `int64` directly, and otherwise
asserting `float64` (panicking on any other dynamic type) and truncating. -/
def GetRequiredInt64 (c : Config) (k : String) : Res Int :=
  match GetRequired c k with
  | .ret (.int64V n) _ => .ret n none
  | .ret (.num q) _ => .ret (truncToZero q) none
  | .ret _ _ => .panic (assertFail "float64")
  | .panic m => .panic m
  | .exit n d => .exit n d

/-- `(c *Config) GetRequiredUint64(key string) uint64` (config.go lines
141-150): a type switch accepting a native `uint64` directly, and otherwise
asserting `float64` and truncating. -/
def GetRequiredUint64 (c : Config) (k : String) : Res Int :=
  match GetRequired c k with
  | .ret (.uint64V n) _ => .ret (n : Int) none
  | .ret (.num q) _ => .ret (truncToZero q) none
  | .ret _ _ => .panic (assertFail "float64")
  | .panic m => .panic m
  | .exit n d => .exit n d

/-- Element loop of `GetRequiredStringSlice` (config.go lines 155-157):
`out = append(out, e.(string))` for each element in order — the bare
assertion panics at the first element that is not a `string`. -/
def coerceStrings : List Value → Res (List String)
  | [] => .ret [] none
  | .str s :: t =>
    match coerceStrings t with
    | .ret l _ => .ret (s :: l) none
    | .panic m => .panic m
    | .exit n d => .exit n d
  | _ :: _ => .panic (assertFail "string")

/-- Element loop of `GetRequiredInt64Slice` (config.go lines 173-175):
`e.(int64)` — only a native `int64` passes; in particular an element that
came from a JSON number (`float64`) panics. -/
def coerceInt64s : List Value → Res (List Int)
  | [] => .ret [] none
  | .int64V n :: t =>
    match coerceInt64s t with
    | .ret l _ => .ret (n :: l) none
    | .panic m => .panic m
    | .exit n' d => .exit n' d
  | _ :: _ => .panic (assertFail "int64")

/-- Element loop of `GetRequiredUint64Slice` (config.go lines 163-165):
`e.(uint64)` — only a native `uint64` passes. -/
def coerceUint64s : List Value → Res (List Nat)
  | [] => .ret [] none
  | .uint64V n :: t =>
    match coerceUint64s t with
    | .ret l _ => .ret (n :: l) none
    | .panic m => .panic m
    | .exit n' d => .exit n' d
  | _ :: _ => .panic (assertFail "uint64")

/-- `(c *Config) GetRequiredStringSlice(key string) []string` (config.go
lines 152-159): `c.GetRequired(key).([]interface{})` (panics unless the
value is a JSON array), then the element loop. -/
def GetRequiredStringSlice (c : Config) (k : String) : Res (List String) :=
  match GetRequired c k with
  | .ret (.arr l) _ => coerceStrings l
  | .ret _ _ => .panic (assertFail "[]interface \x7b\x7d")
  | .panic m => .panic m
  | .exit n d => .exit n d

/-- `(c *Config) GetRequiredInt64Slice(key string) []int64` (config.go
lines 170-177). -/
def GetRequiredInt64Slice (c : Config) (k : String) : Res (List Int) :=
  match GetRequired c k with
  | .ret (.arr l) _ => coerceInt64s l
  | .ret _ _ => .panic (assertFail "[]interface \x7b\x7d")
  | .panic m => .panic m
  | .exit n d => .exit n d

/-- `(c *Config) GetRequiredUint64Slice(key string) []uint64` (config.go
lines 161-168). -/
def GetRequiredUint64Slice (c : Config) (k : String) : Res (List Nat) :=
  match GetRequired c k with
  | .ret (.arr l) _ => coerceUint64s l
  | .ret _ _ => .panic (assertFail "[]interface \x7b\x7d")
  | .panic m => .panic m
  | .exit n d => .exit n d

/-- `(c *Config) Set(key string, value interface{})` (config.go lines
180-182): the single map-write `(*c)[key] = value` of the package.  On a
non-nil map it inserts or overwrites the binding; on a nil map (as produced
by `Loads` of the JSON literal `null`) the write panics with
"assignment to entry in nil map".  The result models the state of `*c`
after the call. -/
def Config.Set (c : Config) (k : String) (v : Value) : Res Config :=
  match c.entries with
  | none => .panic "assignment to entry in nil map"
  | some es => .ret ⟨some (insertEntry es k v)⟩ none

/-- `(c *Config) Debug()` (config.go lines 56-60): one `log.Debugf` line
per binding, in Go's (unspecified) map iteration order — modelled as the
stored order.  Pure observation: the sequence of key/value pairs logged. -/
def Debug (c : Config) : List (String × Value) :=
  match c.entries with
  | none => []
  | some es => es

/-- Keys of an association list. -/
def keysOf (l : List (String × Value)) : List String := l.map Prod.fst

@[simp] theorem keysOf_nil : keysOf [] = [] := rfl

@[simp] theorem keysOf_cons (k : String) (v : Value) (t : List (String × Value)) :
    keysOf ((k, v) :: t) = k :: keysOf t := rfl

@[simp] theorem keysOf_append (l1 l2 : List (String × Value)) :
    keysOf (l1 ++ l2) = keysOf l1 ++ keysOf l2 := List.map_append _ _ _

theorem insertEntry_of_not_mem {l : List (String × Value)} {k : String}
    (v : Value) (h : k ∉ keysOf l) : insertEntry l k v = l ++ [(k, v)] := by
  induction l with
  | nil => rfl
  | cons hd t ih =>
    obtain ⟨k', v'⟩ := hd
    rw [keysOf_cons, List.mem_cons] at h
    push_neg at h
    rw [insertEntry, if_neg (Ne.symm h.1), ih h.2]
    rfl

theorem keysOf_insertEntry (l : List (String × Value)) (k : String) (v : Value) :
    keysOf (insertEntry l k v) =
      if k ∈ keysOf l then keysOf l else keysOf l ++ [k] := by
  induction l with
  | nil => simp [insertEntry]
  | cons hd t ih =>
    obtain ⟨k', v'⟩ := hd
    by_cases hk : k' = k
    · subst hk
      simp [insertEntry]
    · rw [insertEntry, if_neg hk]
      rw [keysOf_cons, keysOf_cons, ih]
      by_cases hm : k ∈ keysOf t
      · simp [hm, Ne.symm hk]
      · simp [hm, Ne.symm hk]

theorem keysOf_insertEntry_nodup {l : List (String × Value)} {k : String}
    (v : Value) (h : (keysOf l).Nodup) : (keysOf (insertEntry l k v)).Nodup := by
  rw [keysOf_insertEntry]
  by_cases hm : k ∈ keysOf l
  · simpa [hm]
  · simp only [hm, if_false]
    exact List.Nodup.append h (List.nodup_singleton k) (by simpa using hm)

theorem mem_insertEntry {l : List (String × Value)} {k : String} {v : Value}
    {kv : String × Value} (h : kv ∈ insertEntry l k v) : kv ∈ l ∨ kv = (k, v) := by
  induction l with
  | nil => simpa [insertEntry] using h
  | cons hd t ih =>
    obtain ⟨k', v'⟩ := hd
    by_cases hk : k' = k
    · rw [insertEntry, if_pos hk] at h
      rcases List.mem_cons.mp h with h1 | h1
      · right; rw [h1, hk]
      · left; exact List.mem_cons_of_mem _ h1
    · rw [insertEntry, if_neg hk] at h
      rcases List.mem_cons.mp h with h1 | h1
      · left; simp [h1]
      · rcases ih h1 with h2 | h2
        · left; simp [h2]
        · right; exact h2

theorem dedupAux_nodup (l : List (String × Value)) :
    ∀ acc, (keysOf acc).Nodup → (keysOf (dedupAux acc l)).Nodup := by
  induction l with
  | nil => intro acc h; simpa [dedupAux]
  | cons hd t ih =>
    intro acc h
    obtain ⟨k, v⟩ := hd
    rw [dedupAux]
    exact ih _ (keysOf_insertEntry_nodup v h)

theorem dedupAux_eq_append (l : List (String × Value)) :
    ∀ acc, (keysOf l).Nodup → (∀ a ∈ keysOf l, a ∉ keysOf acc) →
    dedupAux acc l = acc ++ l := by
  induction l with
  | nil => intro acc _ _; simp [dedupAux]
  | cons hd t ih =>
    intro acc hnd hdisj
    obtain ⟨k, v⟩ := hd
    rw [keysOf_cons] at hnd hdisj
    have hk : k ∉ keysOf acc := hdisj k (List.mem_cons_self k _)
    rw [dedupAux, insertEntry_of_not_mem v hk,
        ih _ (List.nodup_cons.mp hnd).2 ?_]
    · simp
    · intro a ha
      have hka : a ≠ k := fun e => (List.nodup_cons.mp hnd).1 (e ▸ ha)
      have hacc : a ∉ keysOf acc := hdisj a (List.mem_cons_of_mem k ha)
      rw [keysOf_append, List.mem_append]
      rintro (h1 | h1)
      · exact hacc h1
      · exact hka (by simpa using h1)

theorem dedupEntries_of_nodup {l : List (String × Value)}
    (h : (keysOf l).Nodup) : dedupEntries l = l := by
  rw [dedupEntries, dedupAux_eq_append l [] h (by simp)]
  rfl

theorem dedupEntries_nodup (l : List (String × Value)) :
    (keysOf (dedupEntries l)).Nodup :=
  dedupAux_nodup l [] (by simp [keysOf])

theorem mem_dedupAux {l : List (String × Value)} :
    ∀ {acc kv}, kv ∈ dedupAux acc l → kv ∈ acc ∨ kv ∈ l := by
  induction l with
  | nil => intro acc kv h; left; simpa [dedupAux] using h
  | cons hd t ih =>
    intro acc kv h
    obtain ⟨k, v⟩ := hd
    rw [dedupAux] at h
    rcases ih h with h1 | h1
    · rcases mem_insertEntry h1 with h2 | h2
      · left; exact h2
      · right; simp [h2]
    · right; simp [h1]

theorem mem_dedupEntries {l : List (String × Value)} {kv : String × Value}
    (h : kv ∈ dedupEntries l) : kv ∈ l := by
  rcases mem_dedupAux h with h1 | h1
  · simp at h1
  · exact h1

mutual

/-- Values in the image of `json.Unmarshal`: no native integers, and every
object's keys are distinct (it was built as a Go map). -/
def canonV : Value → Prop
  | .null => True
  | .bool _ => True
  | .num _ => True
  | .int64V _ => False
  | .uint64V _ => False
  | .str _ => True
  | .arr l => canonL l
  | .obj es => (keysOf es).Nodup ∧ canonE es

def canonL : List Value → Prop
  | [] => True
  | v :: t => canonV v ∧ canonL t

def canonE : List (String × Value) → Prop
  | [] => True
  | (_, v) :: t => canonV v ∧ canonE t

end

theorem canonE_iff (l : List (String × Value)) :
    canonE l ↔ ∀ kv ∈ l, canonV kv.2 := by
  induction l with
  | nil => simp [canonE]
  | cons hd t ih =>
    obtain ⟨k, v⟩ := hd
    rw [canonE, ih]
    constructor
    · rintro ⟨h1, h2⟩ kv hkv
      rcases List.mem_cons.mp hkv with h3 | h3
      · rw [h3]; exact h1
      · exact h2 kv h3
    · intro h
      exact ⟨h (k, v) (List.mem_cons_self _ _),
        fun kv hkv => h kv (List.mem_cons_of_mem _ hkv)⟩

theorem canonE_dedupEntries {l : List (String × Value)} (h : canonE l) :
    canonE (dedupEntries l) := by
  rw [canonE_iff] at h ⊢
  exact fun kv hkv => h kv (mem_dedupEntries hkv)

mutual

theorem canonV_unmarshal : ∀ j : Json, canonV (unmarshalValue j)
  | .null => trivial
  | .bool _ => trivial
  | .num _ => trivial
  | .str _ => trivial
  | .arr l => canonL_unmarshal l
  | .obj es => ⟨dedupEntries_nodup _, canonE_dedupEntries (canonE_unmarshal es)⟩

theorem canonL_unmarshal : ∀ js : List Json, canonL (unmarshalList js)
  | [] => trivial
  | j :: t => ⟨canonV_unmarshal j, canonL_unmarshal t⟩

theorem canonE_unmarshal : ∀ es : List (String × Json),
    canonE (unmarshalEntries es)
  | [] => trivial
  | (_, j) :: t => ⟨canonV_unmarshal j, canonE_unmarshal t⟩

end

mutual

theorem unmarshal_marshal_value :
    ∀ v : Value, canonV v → unmarshalValue (marshalValue v) = v
  | .null, _ => rfl
  | .bool _, _ => rfl
  | .num _, _ => rfl
  | .str _, _ => rfl
  | .arr l, h => by
    rw [marshalValue, unmarshalValue, unmarshal_marshal_list l h]
  | .obj es, h => by
    rw [marshalValue, unmarshalValue, unmarshal_marshal_entries es h.2,
        dedupEntries_of_nodup h.1]

theorem unmarshal_marshal_list :
    ∀ l : List Value, canonL l → unmarshalList (marshalList l) = l
  | [], _ => rfl
  | v :: t, h => by
    rw [marshalList, unmarshalList, unmarshal_marshal_value v h.1,
        unmarshal_marshal_list t h.2]

theorem unmarshal_marshal_entries :
    ∀ l : List (String × Value), canonE l →
      unmarshalEntries (marshalEntries l) = l
  | [], _ => rfl
  | (k, v) :: t, h => by
    rw [marshalEntries, unmarshalEntries, unmarshal_marshal_value v h.1,
        unmarshal_marshal_entries t h.2]

end

theorem loads_canonE (es : List (String × Json)) :
    canonE (dedupEntries (unmarshalEntries es)) :=
  canonE_dedupEntries (canonE_unmarshal es)

theorem roundtrip_main (j : Json) (c : Config) (h : Loads j = (c, none)) :
    Loads (Dumps c).1 = (c, none) := by
  cases j with
  | null =>
    have hc : c = ⟨none⟩ := by
      have := congrArg Prod.fst h
      simpa [Loads] using this.symm
    subst hc
    rfl
  | obj es =>
    have hc : c = ⟨some (dedupEntries (unmarshalEntries es))⟩ := by
      have := congrArg Prod.fst h
      simpa [Loads] using this.symm
    subst hc
    rw [Dumps]
    rw [Loads]
    rw [unmarshal_marshal_entries _ (loads_canonE es),
        dedupEntries_of_nodup (dedupEntries_nodup _)]
  | bool b => exact absurd (congrArg Prod.snd h) (by simp [Loads])
  | num q => exact absurd (congrArg Prod.snd h) (by simp [Loads])
  | str s => exact absurd (congrArg Prod.snd h) (by simp [Loads])
  | arr l => exact absurd (congrArg Prod.snd h) (by simp [Loads])

/-- Simple association-list fact used by the set/get contract:
a write is visible to a subsequent read of the same key. -/
theorem lookupEntry_insertEntry_self (l : List (String × Value)) (k : String)
    (v : Value) : lookupEntry (insertEntry l k v) k = some v := by
  induction l with
  | nil => simp [insertEntry, lookupEntry]
  | cons hd t ih =>
    obtain ⟨k', v'⟩ := hd
    by_cases hk : k' = k
    · rw [insertEntry, if_pos hk, lookupEntry, if_pos hk]
    · rw [insertEntry, if_neg hk, lookupEntry, if_neg hk]
      exact ih

/-- A write leaves every other key's binding untouched. -/
theorem lookupEntry_insertEntry_ne (l : List (String × Value)) {k k' : String}
    (v : Value) (h : k' ≠ k) :
    lookupEntry (insertEntry l k v) k' = lookupEntry l k' := by
  induction l with
  | nil => simp [insertEntry, lookupEntry, Ne.symm h]
  | cons hd t ih =>
    obtain ⟨a, b⟩ := hd
    by_cases ha : a = k
    · rw [insertEntry, if_pos ha, lookupEntry, lookupEntry]
      rw [if_neg (ha ▸ fun e => h e.symm), if_neg (ha ▸ fun e => h e.symm)]
    · rw [insertEntry, if_neg ha, lookupEntry, lookupEntry]
      by_cases hb : a = k'
      · rw [if_pos hb, if_pos hb]
      · rw [if_neg hb, if_neg hb]
        exact ih

/-!
State-transformer forms of the methods, for the frame property.  Every
method of the package takes the receiver `c *Config`; the translation
threads the state of `*c` through the body.  The bodies of all the readers
consist solely of map reads, calls to other readers, `json.Marshal`, and
logging — the single statement of the package that writes through the
receiver is `(*c)[key] = value` in `Set` — so each reader's final state is
its initial state, and `SetM` is the one transformer whose final state
differs. -/

def GetM (c : Config) (k : String) : (Value × Option GoError) × Config :=
  (Get c k, c)

def GetStringM (c : Config) (k : String) : Res String × Config :=
  (GetString c k, c)

def GetInt64M (c : Config) (k : String) : Res Int × Config :=
  (GetInt64 c k, c)

def GetUint64M (c : Config) (k : String) : Res Int × Config :=
  (GetUint64 c k, c)

def GetSubConfigM (c : Config) (k : String) : Res Config × Config :=
  (GetSubConfig c k, c)

def GetRequiredM (c : Config) (k : String) : Res Value × Config :=
  (GetRequired c k, c)

def GetRequiredStringM (c : Config) (k : String) : Res String × Config :=
  (GetRequiredString c k, c)

def GetRequiredInt64M (c : Config) (k : String) : Res Int × Config :=
  (GetRequiredInt64 c k, c)

def GetRequiredUint64M (c : Config) (k : String) : Res Int × Config :=
  (GetRequiredUint64 c k, c)

def GetRequiredSubConfigM (c : Config) (k : String) : Res Config × Config :=
  (GetRequiredSubConfig c k, c)

def GetRequiredStringSliceM (c : Config) (k : String) :
    Res (List String) × Config :=
  (GetRequiredStringSlice c k, c)

def GetRequiredInt64SliceM (c : Config) (k : String) :
    Res (List Int) × Config :=
  (GetRequiredInt64Slice c k, c)

def GetRequiredUint64SliceM (c : Config) (k : String) :
    Res (List Nat) × Config :=
  (GetRequiredUint64Slice c k, c)

def DumpsM (c : Config) : (Json × Option GoError) × Config :=
  (Dumps c, c)

def DebugM (c : Config) : List (String × Value) × Config :=
  (Debug c, c)

/-! ## Claims -/

/-- C1, counterexample: the claim says `GetString("x")` where `x` holds a
number returns a `TypeMismatch` error value (not a panic); the code has no
`TypeMismatch` error at all and the bare assertion `val.(string)` panics. -/
theorem getString_on_number_panics_ce :
    GetString ⟨some [("x", .num 42)]⟩ "x" = .panic (assertFail "string") :=
  rfl

/-- C1, amended: for every store and key, the typed optional accessors
`GetString`, `GetInt64` and `GetUint64` return the explicit error
`ErrNoSuchKey` when the key is absent; when the stored value's dynamic
type is incompatible with the accessor's type assertion (`string`,
resp. exactly `float64` for both integer accessors) the call terminates in
a runtime panic instead of returning an error value. -/
theorem typed_accessors_error_or_panic (c : Config) (k : String) :
    (c.get? k = none →
      GetString c k = .ret "" (some .noSuchKey)
      ∧ GetInt64 c k = .ret 0 (some .noSuchKey)
      ∧ GetUint64 c k = .ret 0 (some .noSuchKey))
    ∧ (∀ v, c.get? k = some v → (∀ s, v ≠ .str s) →
        GetString c k = .panic (assertFail "string"))
    ∧ (∀ v, c.get? k = some v → (∀ q, v ≠ .num q) →
        GetInt64 c k = .panic (assertFail "float64"))
    ∧ (∀ v, c.get? k = some v → (∀ q, v ≠ .num q) →
        GetUint64 c k = .panic (assertFail "float64")) := by
  refine ⟨?_, ?_, ?_, ?_⟩
  · intro h
    refine ⟨?_, ?_, ?_⟩ <;> simp [GetString, GetInt64, GetUint64, h]
  · intro v h hv
    cases v <;> first
      | exact absurd rfl (hv _)
      | simp [GetString, h]
  · intro v h hv
    cases v <;> first
      | exact absurd rfl (hv _)
      | simp [GetInt64, h]
  · intro v h hv
    cases v <;> first
      | exact absurd rfl (hv _)
      | simp [GetUint64, h]

/-- C1, witness: concrete instances of the amended claim. -/
theorem typed_accessors_error_or_panic_witness :
    GetString ⟨some [("y", .num 7)]⟩ "y" = .panic (assertFail "string")
    ∧ GetInt64 ⟨some [("s", .str "v")]⟩ "s" = .panic (assertFail "float64")
    ∧ GetString (⟨some []⟩ : Config) "m" = .ret "" (some .noSuchKey) :=
  ⟨(typed_accessors_error_or_panic ⟨some [("y", .num 7)]⟩ "y").2.1
      (.num 7) rfl (fun _ h => Value.noConfusion h),
   (typed_accessors_error_or_panic ⟨some [("s", .str "v")]⟩ "s").2.2.1
      (.str "v") rfl (fun _ h => Value.noConfusion h),
   ((typed_accessors_error_or_panic (⟨some []⟩ : Config) "m").1 rfl).1⟩

/-- C2: a store loaded without error round-trips through dump and load to
the very same store (hence in particular to a value-equal one, key order
irrelevant), and a stored integral number survives the round trip as the
same number. -/
theorem loads_dumps_loads_roundtrip (j : Json) (c : Config)
    (h : Loads j = (c, none)) :
    Loads (Dumps c).1 = (c, none)
    ∧ (∀ k, ((Loads (Dumps c).1).1).get? k = c.get? k)
    ∧ (∀ k q, c.get? k = some (.num q) → q.den = 1 →
        ((Loads (Dumps c).1).1).get? k = some (.num q)) := by
  have h1 := roundtrip_main j c h
  have h2 : (Loads (Dumps c).1).1 = c := congrArg Prod.fst h1
  exact ⟨h1, fun k => by rw [h2], fun k q hk _ => by rw [h2]; exact hk⟩

/-- C2, witness: round trip of a concrete document exercising every JSON
value kind. -/
theorem loads_dumps_loads_roundtrip_witness :
    Loads (Dumps ⟨some [("a", .num 1), ("s", .str "x"), ("b", .bool true),
        ("z", .null), ("l", .arr [.num 2, .str "y"]),
        ("o", .obj [("i", .num 3)])]⟩).1
      = (⟨some [("a", .num 1), ("s", .str "x"), ("b", .bool true),
        ("z", .null), ("l", .arr [.num 2, .str "y"]),
        ("o", .obj [("i", .num 3)])]⟩, none) :=
  (loads_dumps_loads_roundtrip
    (.obj [("a", .num 1), ("s", .str "x"), ("b", .bool true),
        ("z", .null), ("l", .arr [.num 2, .str "y"]),
        ("o", .obj [("i", .num 3)])])
    ⟨some [("a", .num 1), ("s", .str "x"), ("b", .bool true),
        ("z", .null), ("l", .arr [.num 2, .str "y"]),
        ("o", .obj [("i", .num 3)])]⟩ rfl).1

/-- C3, counterexample: the claim says `GetSubConfig` returns a
`TypeMismatch` error when the stored value is not a nested mapping; the
code panics on the failed assertion `val.(map[string]interface\x7b\x7d)`
instead. -/
theorem getSubConfig_on_nonmapping_panics_ce :
    GetSubConfig ⟨some [("x", .str "s")]⟩ "x"
      = .panic (assertFail "map[string]interface \x7b\x7d") :=
  rfl

/-- C3, amended: `GetSubConfig` returns `ErrNoSuchKey` when the key is
absent and panics (rather than returning a `TypeMismatch` error) when the
stored value is not a nested mapping; on a nested mapping it returns a
ConfigStore over that mapping, so that on `{"x": {"a": 1}}` the
sub-config's `GetInt64("a")` returns 1. -/
theorem getSubConfig_spec (c : Config) (k : String) :
    (c.get? k = none → GetSubConfig c k = .ret ⟨some []⟩ (some .noSuchKey))
    ∧ (∀ v, c.get? k = some v → (∀ es, v ≠ .obj es) →
        GetSubConfig c k = .panic (assertFail "map[string]interface \x7b\x7d"))
    ∧ (∀ es, c.get? k = some (.obj es) →
        GetSubConfig c k = .ret ⟨some es⟩ none
        ∧ ∀ a q, lookupEntry es a = some (.num q) →
            GetInt64 ⟨some es⟩ a = .ret (truncToZero q) none)
    ∧ (GetSubConfig ⟨some [("x", .obj [("a", .num 1)])]⟩ "x"
        = .ret ⟨some [("a", .num 1)]⟩ none
      ∧ GetInt64 ⟨some [("a", .num 1)]⟩ "a" = .ret 1 none) := by
  refine ⟨?_, ?_, ?_, rfl, ?_⟩
  · intro h; simp [GetSubConfig, h]
  · intro v h hv
    cases v <;> first
      | exact absurd rfl (hv _)
      | simp [GetSubConfig, h]
  · intro es h
    refine ⟨by simp [GetSubConfig, h], ?_⟩
    intro a q ha
    simp [GetInt64, Config.get?, ha]
  · rw [show GetInt64 ⟨some [("a", Value.num 1)]⟩ "a"
        = .ret (truncToZero 1) none from rfl,
      show truncToZero 1 = 1 by norm_num [truncToZero]]

/-- C3, witness: the amended claim at the concrete store `{"x": {"a": 1}}`
and at a store missing the key. -/
theorem getSubConfig_spec_witness :
    GetSubConfig ⟨some [("x", .obj [("a", .num 1)])]⟩ "x"
      = .ret ⟨some [("a", .num 1)]⟩ none
    ∧ GetSubConfig (⟨some []⟩ : Config) "x"
      = .ret ⟨some []⟩ (some .noSuchKey) :=
  ⟨((getSubConfig_spec ⟨some [("x", .obj [("a", .num 1)])]⟩ "x").2.2.1
      [("a", .num 1)] rfl).1,
   (getSubConfig_spec (⟨some []⟩ : Config) "x").1 rfl⟩

/-- C5: on a key holding a value parsed from a JSON number, `GetInt64`
returns the number truncated toward zero (floor for nonnegative, ceiling
for negative values); concretely `42 ↦ 42` and `3.9 ↦ 3` (truncation, not
rounding). -/
theorem getInt64_truncates_toward_zero (c : Config) (k : String) (q : ℚ)
    (h : c.get? k = some (.num q)) :
    GetInt64 c k = .ret (truncToZero q) none
    ∧ (0 ≤ q → truncToZero q = ⌊q⌋)
    ∧ (q < 0 → truncToZero q = ⌈q⌉)
    ∧ GetInt64 ⟨some [("x", .num 42)]⟩ "x" = .ret 42 none
    ∧ GetInt64 ⟨some [("x", .num (39/10))]⟩ "x" = .ret 3 none := by
  refine ⟨by simp [GetInt64, h], fun h0 => if_pos h0,
    fun h0 => if_neg (not_le.mpr h0), ?_, ?_⟩
  · rw [show GetInt64 ⟨some [("x", Value.num 42)]⟩ "x"
        = .ret (truncToZero 42) none from rfl,
      show truncToZero 42 = 42 by norm_num [truncToZero]]
  · rw [show GetInt64 ⟨some [("x", Value.num (39/10))]⟩ "x"
        = .ret (truncToZero (39/10)) none from rfl,
      show truncToZero (39/10) = 3 by norm_num [truncToZero]]

/-- C5, witness: the fractional example evaluated at a concrete store. -/
theorem getInt64_truncates_toward_zero_witness :
    GetInt64 ⟨some [("x", .num (39/10))]⟩ "x" = .ret 3 none :=
  (getInt64_truncates_toward_zero ⟨some [("x", .num (39/10))]⟩ "x"
    (39/10) rfl).2.2.2.2

/-- C6, counterexample: the claim says a top-level `null` buffer is
rejected with a parse error; `json.Unmarshal` into a map accepts the JSON
literal `null` with no error (leaving the map nil). -/
theorem loads_null_accepted_ce : Loads .null = (⟨none⟩, none) := rfl

/-- C6, amended: `Loads` succeeds exactly on documents whose top level is
an object **or the literal `null`**; every other well-formed top level
(array, string, number, boolean) is rejected, and the only error produced
is the unmarshalling type error.  (Buffers that are not valid JSON at all
are rejected by the underlying parser and are outside the tree-level
model.) -/
theorem loads_error_iff_top_level (j : Json) :
    ((Loads j).2 = none ↔ j = .null ∨ ∃ es, j = .obj es)
    ∧ ((Loads j).2 = none ∨ (Loads j).2 = some .unmarshalTypeError) := by
  cases j <;> simp [Loads]

/-- C6, witness: the amended claim evaluated at concrete top levels. -/
theorem loads_error_iff_top_level_witness :
    (Loads (.arr [.num 1])).2 = some .unmarshalTypeError
    ∧ (Loads .null).2 = none :=
  ⟨((loads_error_iff_top_level (.arr [.num 1])).2).resolve_left
      (by intro h; exact absurd ((loads_error_iff_top_level
        (.arr [.num 1])).1.mp h) (by simp)),
   (loads_error_iff_top_level .null).1.mpr (Or.inl rfl)⟩

/-- Element-wise success of the string-slice loop: a sequence of strings is
coerced element by element, in order. -/
theorem coerceStrings_all_strings (ss : List String) :
    coerceStrings (ss.map .str) = .ret ss none := by
  induction ss with
  | nil => rfl
  | cons s t ih => rw [List.map_cons, coerceStrings, ih]

/-- Whole-operation failure of the string-slice loop: one element of the
wrong dynamic type makes the whole coercion panic. -/
theorem coerceStrings_panic_of_bad {l : List Value}
    (h : ∃ v ∈ l, ∀ s, v ≠ .str s) : ∃ m, coerceStrings l = .panic m := by
  induction l with
  | nil => simp at h
  | cons v t ih =>
    obtain ⟨w, hw, hbad⟩ := h
    cases v with
    | str s =>
      have hwt : w ∈ t := by
        rcases List.mem_cons.mp hw with h1 | h1
        · exact absurd h1 (hbad s)
        · exact h1
      obtain ⟨m, hm⟩ := ih ⟨w, hwt, hbad⟩
      exact ⟨m, by rw [coerceStrings, hm]⟩
    | null => exact ⟨_, rfl⟩
    | bool b => exact ⟨_, rfl⟩
    | num q => exact ⟨_, rfl⟩
    | int64V n => exact ⟨_, rfl⟩
    | uint64V n => exact ⟨_, rfl⟩
    | arr l2 => exact ⟨_, rfl⟩
    | obj es => exact ⟨_, rfl⟩

/-- Element-wise success of the int64-slice loop on **native** `int64`
elements. -/
theorem coerceInt64s_all_native (ns : List Int) :
    coerceInt64s (ns.map .int64V) = .ret ns none := by
  induction ns with
  | nil => rfl
  | cons n t ih => rw [List.map_cons, coerceInt64s, ih]

/-- The int64-slice loop panics as soon as the list contains any element
that is not a native `int64` — in particular any JSON-parsed number
(`float64`). -/
theorem coerceInt64s_panic_of_bad {l : List Value}
    (h : ∃ v ∈ l, ∀ n, v ≠ .int64V n) : ∃ m, coerceInt64s l = .panic m := by
  induction l with
  | nil => simp at h
  | cons v t ih =>
    obtain ⟨w, hw, hbad⟩ := h
    cases v with
    | int64V n =>
      have hwt : w ∈ t := by
        rcases List.mem_cons.mp hw with h1 | h1
        · exact absurd h1 (hbad n)
        · exact h1
      obtain ⟨m, hm⟩ := ih ⟨w, hwt, hbad⟩
      exact ⟨m, by rw [coerceInt64s, hm]⟩
    | null => exact ⟨_, rfl⟩
    | bool b => exact ⟨_, rfl⟩
    | num q => exact ⟨_, rfl⟩
    | uint64V n => exact ⟨_, rfl⟩
    | str s => exact ⟨_, rfl⟩
    | arr l2 => exact ⟨_, rfl⟩
    | obj es => exact ⟨_, rfl⟩

/-- Counterpart of `coerceInt64s_panic_of_bad` for the uint64 loop. -/
theorem coerceUint64s_panic_of_bad {l : List Value}
    (h : ∃ v ∈ l, ∀ n, v ≠ .uint64V n) : ∃ m, coerceUint64s l = .panic m := by
  induction l with
  | nil => simp at h
  | cons v t ih =>
    obtain ⟨w, hw, hbad⟩ := h
    cases v with
    | uint64V n =>
      have hwt : w ∈ t := by
        rcases List.mem_cons.mp hw with h1 | h1
        · exact absurd h1 (hbad n)
        · exact h1
      obtain ⟨m, hm⟩ := ih ⟨w, hwt, hbad⟩
      exact ⟨m, by rw [coerceUint64s, hm]⟩
    | null => exact ⟨_, rfl⟩
    | bool b => exact ⟨_, rfl⟩
    | num q => exact ⟨_, rfl⟩
    | int64V n => exact ⟨_, rfl⟩
    | str s => exact ⟨_, rfl⟩
    | arr l2 => exact ⟨_, rfl⟩
    | obj es => exact ⟨_, rfl⟩

/-- C4, counterexample: the claim says the numeric slice variants succeed
on elements stored as generic JSON numbers; `GetRequiredInt64Slice` on
`{"arr": [1, 2]}` loaded from JSON (elements of dynamic type `float64`)
panics on the assertion `e.(int64)` instead. -/
theorem getRequiredInt64Slice_json_numbers_panic_ce :
    GetRequiredInt64Slice ⟨some [("arr", .arr [.num 1, .num 2])]⟩ "arr"
      = .panic (assertFail "int64") :=
  rfl

/-- C4, amended: on a key holding a sequence, each required slice accessor
coerces every element individually, in order, and any single element of the
wrong dynamic type makes the whole call fail as a panic.
`GetRequiredStringSlice` on `["a","b"]` returns `["a","b"]`; the numeric
variants however accept only **native** `int64`/`uint64` elements, so they
panic — rather than succeed — on elements stored as generic JSON numbers
(`float64`). -/
theorem required_slice_accessors_spec (c : Config) (k : String) :
    (∀ l, c.get? k = some (.arr l) →
      GetRequiredStringSlice c k = coerceStrings l
      ∧ GetRequiredInt64Slice c k = coerceInt64s l
      ∧ GetRequiredUint64Slice c k = coerceUint64s l)
    ∧ (∀ ss : List String, coerceStrings (ss.map .str) = .ret ss none)
    ∧ (∀ l, (∃ v ∈ l, ∀ s, v ≠ .str s) → ∃ m, coerceStrings l = .panic m)
    ∧ (∀ ns : List Int, coerceInt64s (ns.map .int64V) = .ret ns none)
    ∧ (∀ l q, .num q ∈ l → ∃ m, coerceInt64s l = .panic m)
    ∧ (∀ l q, .num q ∈ l → ∃ m, coerceUint64s l = .panic m)
    ∧ GetRequiredStringSlice ⟨some [("arr", .arr [.str "a", .str "b"])]⟩ "arr"
        = .ret ["a", "b"] none := by
  refine ⟨?_, coerceStrings_all_strings, fun l h => coerceStrings_panic_of_bad h,
    coerceInt64s_all_native,
    fun l q h => coerceInt64s_panic_of_bad
      ⟨.num q, h, fun n e => Value.noConfusion e⟩,
    fun l q h => coerceUint64s_panic_of_bad
      ⟨.num q, h, fun n e => Value.noConfusion e⟩, rfl⟩
  intro l h
  refine ⟨?_, ?_, ?_⟩ <;>
    simp [GetRequiredStringSlice, GetRequiredInt64Slice,
      GetRequiredUint64Slice, GetRequired, h]

/-- C4, witness: the amended claim at concrete stores. -/
theorem required_slice_accessors_spec_witness :
    GetRequiredStringSlice ⟨some [("arr", .arr [.str "a", .str "b"])]⟩ "arr"
      = coerceStrings [.str "a", .str "b"]
    ∧ coerceStrings (["a", "b"].map .str) = .ret ["a", "b"] none :=
  ⟨((required_slice_accessors_spec
      ⟨some [("arr", .arr [.str "a", .str "b"])]⟩ "arr").1
      [.str "a", .str "b"] rfl).1,
   (required_slice_accessors_spec ⟨none⟩ "arr").2.1 ["a", "b"]⟩

/-- The diagnostic `GetRequired` logs before exiting. -/
def mandatoryDiag (k : String) : String :=
  "Configuration parameter " ++ k ++ " is mandatory"

/-- C7: every `GetRequired*` accessor called on an absent key terminates
the process via `os.Exit(1)` (a non-zero status) after logging a
diagnostic that names the missing key, instead of returning an error
value. -/
theorem getRequired_missing_key_exits (c : Config) (k : String)
    (h : c.get? k = none) :
    GetRequired c k = .exit 1 (mandatoryDiag k)
    ∧ GetRequiredString c k = .exit 1 (mandatoryDiag k)
    ∧ GetRequiredInt64 c k = .exit 1 (mandatoryDiag k)
    ∧ GetRequiredUint64 c k = .exit 1 (mandatoryDiag k)
    ∧ GetRequiredSubConfig c k = .exit 1 (mandatoryDiag k)
    ∧ GetRequiredStringSlice c k = .exit 1 (mandatoryDiag k)
    ∧ GetRequiredInt64Slice c k = .exit 1 (mandatoryDiag k)
    ∧ GetRequiredUint64Slice c k = .exit 1 (mandatoryDiag k)
    ∧ (∃ pre post, mandatoryDiag k = pre ++ k ++ post)
    ∧ (1 : Nat) ≠ 0 := by
  have h0 : GetRequired c k = .exit 1 (mandatoryDiag k) := by
    simp [GetRequired, h, mandatoryDiag]
  refine ⟨h0, ?_, ?_, ?_, ?_, ?_, ?_, ?_,
    ⟨"Configuration parameter ", " is mandatory", rfl⟩, one_ne_zero⟩ <;>
    simp [GetRequiredString, GetRequiredInt64, GetRequiredUint64,
      GetRequiredSubConfig, GetRequiredStringSlice, GetRequiredInt64Slice,
      GetRequiredUint64Slice, h0]

/-- C7, witness: a concrete `GetRequired` against a missing key. -/
theorem getRequired_missing_key_exits_witness :
    GetRequired (⟨some [("present", .num 1)]⟩ : Config) "db.host"
      = .exit 1 (mandatoryDiag "db.host")
    ∧ GetRequiredString (⟨some [("present", .num 1)]⟩ : Config) "db.host"
      = .exit 1 (mandatoryDiag "db.host") :=
  ⟨(getRequired_missing_key_exits ⟨some [("present", .num 1)]⟩
      "db.host" rfl).1,
   (getRequired_missing_key_exits ⟨some [("present", .num 1)]⟩
      "db.host" rfl).2.1⟩

/-- C8: `Get` on an absent key returns the zero value with `ErrNoSuchKey`
(in particular on an empty store), `Get` on a present key returns the
stored value unmodified with a nil error, and on a non-nil store a `Set`
followed by a `Get` of the same key returns the just-written value with a
nil error (concretely `Set("k","v")` then `Get("k")` gives `("v", nil)`). -/
theorem get_set_contract (c : Config) (k : String) (v : Value) :
    Get (⟨some []⟩ : Config) "missing" = (.null, some .noSuchKey)
    ∧ (c.get? k = none → Get c k = (.null, some .noSuchKey))
    ∧ (∀ w, c.get? k = some w → Get c k = (w, none))
    ∧ (∀ es, c.entries = some es →
        ∃ c', Config.Set c k v = .ret c' none ∧ Get c' k = (v, none)) := by
  refine ⟨rfl, ?_, ?_, ?_⟩
  · intro h; simp [Get, h]
  · intro w h; simp [Get, h]
  · intro es hes
    refine ⟨⟨some (insertEntry es k v)⟩, by simp [Config.Set, hes], ?_⟩
    simp [Get, Config.get?, lookupEntry_insertEntry_self]

/-- C8, witness: the set-then-get contract at `Set("k","v")` on an empty
store. -/
theorem get_set_contract_witness :
    ∃ c', Config.Set (⟨some []⟩ : Config) "k" (.str "v") = .ret c' none
      ∧ Get c' "k" = (.str "v", none) :=
  (get_set_contract (⟨some []⟩ : Config) "k" (.str "v")).2.2.2 [] rfl

/-- C9: every reader operation of the package (`Get`, `GetString`,
`GetInt64`, `GetUint64`, `GetSubConfig`, the whole `GetRequired*` family,
`Dumps`, `Debug`), run as a state transformer on the receiver `*c`, leaves
the key-value mapping unchanged — their bodies contain no map write — and
`Set`, the package's only map write, changes exactly the entry of its key
and no other. -/
theorem readers_pure_set_frame (c : Config) (k : String) (v : Value) :
    (∀ a, (GetM c a).2 = c)
    ∧ (∀ a, (GetStringM c a).2 = c)
    ∧ (∀ a, (GetInt64M c a).2 = c)
    ∧ (∀ a, (GetUint64M c a).2 = c)
    ∧ (∀ a, (GetSubConfigM c a).2 = c)
    ∧ (∀ a, (GetRequiredM c a).2 = c)
    ∧ (∀ a, (GetRequiredStringM c a).2 = c)
    ∧ (∀ a, (GetRequiredInt64M c a).2 = c)
    ∧ (∀ a, (GetRequiredUint64M c a).2 = c)
    ∧ (∀ a, (GetRequiredSubConfigM c a).2 = c)
    ∧ (∀ a, (GetRequiredStringSliceM c a).2 = c)
    ∧ (∀ a, (GetRequiredInt64SliceM c a).2 = c)
    ∧ (∀ a, (GetRequiredUint64SliceM c a).2 = c)
    ∧ (DumpsM c).2 = c
    ∧ (DebugM c).2 = c
    ∧ (∀ c' e, Config.Set c k v = .ret c' e →
        e = none ∧ c'.get? k = some v
        ∧ ∀ a, a ≠ k → c'.get? a = c.get? a) := by
  refine ⟨fun _ => rfl, fun _ => rfl, fun _ => rfl, fun _ => rfl,
    fun _ => rfl, fun _ => rfl, fun _ => rfl, fun _ => rfl, fun _ => rfl,
    fun _ => rfl, fun _ => rfl, fun _ => rfl, fun _ => rfl, rfl, rfl, ?_⟩
  intro c' e hset
  cases hc : c.entries with
  | none => rw [Config.Set, hc] at hset; exact Res.noConfusion hset
  | some es =>
    rw [Config.Set, hc] at hset
    obtain ⟨hc', he⟩ : ⟨some (insertEntry es k v)⟩ = c' ∧ (none : Option GoError) = e :=
      by injection hset with h1 h2; exact ⟨h1, h2⟩
    subst hc'
    subst he
    refine ⟨rfl, ?_, ?_⟩
    · simp [Config.get?, lookupEntry_insertEntry_self]
    · intro a ha
      simp [Config.get?, hc, lookupEntry_insertEntry_ne es v ha]

/-- C9, witness: the frame property of `Set` at a concrete store. -/
theorem readers_pure_set_frame_witness :
    (none : Option GoError) = none
    ∧ (⟨some (insertEntry [("a", .num 1)] "k" (.str "v"))⟩ : Config).get? "k"
        = some (.str "v")
    ∧ ∀ a, a ≠ "k" →
        (⟨some (insertEntry [("a", .num 1)] "k" (.str "v"))⟩ : Config).get? a
          = (⟨some [("a", .num 1)]⟩ : Config).get? a :=
  (readers_pure_set_frame ⟨some [("a", .num 1)]⟩ "k" (.str "v")).2.2.2.2.2.2.2.2.2.2.2.2.2.2.2
    ⟨some (insertEntry [("a", .num 1)] "k" (.str "v"))⟩ none rfl

/-- C10: `Loads` accepts the JSON literal `null` with no error and yields a
nil map; `Get` on that store returns `ErrNoSuchKey` for every key, and any
subsequent `Set` on it panics ("assignment to entry in nil map") instead of
inserting the entry. -/
theorem loads_null_nil_map_set_panics :
    Loads .null = (⟨none⟩, none)
    ∧ (∀ k, Get (Loads .null).1 k = (.null, some .noSuchKey))
    ∧ (∀ k v, Config.Set (Loads .null).1 k v
        = .panic "assignment to entry in nil map") :=
  ⟨rfl, fun _ => rfl, fun _ _ => rfl⟩
